import Mathlib

/-!
Shallow embedding of `ml_metadata/tools/mlmd_bench/thread_runner.cc`
(the mlmd_bench concurrent benchmark execution engine).

Modelling conventions:
* `tensorflow::Status` is a code (0 = OK, 10 = ABORTED) plus a message.
* The external collaborators (`MetadataStore` creation, `WorkloadBase`,
  `ThreadStats`) are oracles: a `Workload` carries the outcome of each
  `SetUp`/`RunOp`/`TearDown` call, and a `WorkloadEnv` carries the outcome
  of each `CreateMetadataStore` call.  `RunOp` is indexed by the work-item
  index and the attempt number at that index, so that retries can observe
  different outcomes.
* The unbounded retry loop of `ExecuteWorkload` is given explicit fuel;
  `none` means the fuel ran out (the C++ loop would still be spinning).
* Concurrency: worker tasks are sequentialised in scheduling order; the
  racy status check at thread_runner.cc:153 (`TF_RETURN_IF_ERROR(curr_status)`
  immediately after `pool.Schedule`) is modelled by an `observed` oracle
  telling whether worker `t` had already finished (and published its status)
  when the main thread read the status slot.
* Calls into collaborators are recorded as events so that claims about
  which calls happen, and in which order, are statable.
-/

namespace MlmdBench

/-- Model of `tensorflow::Status`: an error code (0 is OK) plus a message.
`tensorflow::error::ABORTED` is code 10. -/
structure Status where
  code : Nat
  msg : String
deriving Repr, DecidableEq

/-- The OK status (code 0). -/
def Status.ok : Status := ⟨0, ""⟩

/-- `Status::ok()`: true iff the code is 0. -/
def Status.isOk (s : Status) : Bool := s.code == 0

/-- `tensorflow::error::ABORTED`. -/
def abortedCode : Nat := 10

/-- Modelled from the spec: `OpStats` (stats.h is not under src/) — the
outcome record of one operation: transferred bytes and elapsed time. -/
structure OpStats where
  bytes : Nat
  elapsedMicros : Nat
deriving Repr, DecidableEq

/-- Modelled from the spec: `ThreadStats` (stats.h/stats.cc are not under
src/) — per-worker accumulator of combinable measures: summed byte counts,
summed operation counts, summed elapsed time, plus the last progress
snapshot passed to `Update`. -/
structure ThreadStats where
  bytes : Nat := 0
  ops : Nat := 0
  elapsedMicros : Nat := 0
  lastSnapshot : Nat := 0
deriving Repr, DecidableEq

/-- Modelled from the spec: `ThreadStats::Update(op_stats, total_done)` —
record one successful operation, tagged with the progress snapshot. -/
def ThreadStats.update (ts : ThreadStats) (op : OpStats) (snapshot : Nat) :
    ThreadStats :=
  { bytes := ts.bytes + op.bytes
    ops := ts.ops + 1
    elapsedMicros := ts.elapsedMicros + op.elapsedMicros
    lastSnapshot := snapshot }

/-- Modelled from the spec: `ThreadStats::Merge` — fold another worker's
accumulator into this one by summing the combinable measures. -/
def ThreadStats.merge (a b : ThreadStats) : ThreadStats :=
  { bytes := a.bytes + b.bytes
    ops := a.ops + b.ops
    elapsedMicros := a.elapsedMicros + b.elapsedMicros
    lastSnapshot := max a.lastSnapshot b.lastSnapshot }

/-- The default-constructed `ThreadStats` (all accumulators zero). -/
def statsZero : ThreadStats := {}

/-- Modelled from the spec: `ThreadStats::Report(name)` — produce the
summary pair (bytes-per-second, microseconds-per-operation) from the
accumulated measures. -/
def ThreadStats.report (ts : ThreadStats) (_workloadName : String) :
    Rat × Rat :=
  (if ts.elapsedMicros == 0 then 0
    else (ts.bytes : Rat) * 1000000 / (ts.elapsedMicros : Rat),
   if ts.ops == 0 then 0 else (ts.elapsedMicros : Rat) / (ts.ops : Rat))

/-- One summary slot of the report proto (`WorkloadConfigResult`). -/
structure WorkloadConfigResult where
  bytesPerSecond : Rat
  microsecondsPerOperation : Rat
deriving Repr, DecidableEq

/-- Events recording the engine's calls into its collaborators. -/
inductive Ev where
  | createSetUpStore
  | setUpCall
  | createThreadStore (i : Nat)
  | scheduleWorker (t : Nat)
  | tearDownCall
  | statsStart
  | statsStop
  | runOp (idx : Nat)
  | update (idx : Nat)
deriving Repr, DecidableEq

/-- A `WorkloadBase` as seen by the engine: accessors plus outcome oracles
for `SetUp`, `RunOp` (by work-item index and attempt number at that index)
and `TearDown`.  `RunOp` yields the operation's `OpStats` and its status. -/
structure Workload where
  name : String
  numOperations : Nat
  setUpStatus : Status
  runOp : Nat → Nat → OpStats × Status
  tearDownStatus : Status

/-- One workload slot of the benchmark plus the outcomes of the
`CreateMetadataStore` calls made on its behalf (one for setup, one per
worker thread). -/
structure WorkloadEnv where
  workload : Workload
  setUpStoreStatus : Status
  threadStoreStatus : Nat → Status

/-- `SetUpWorkload` (thread_runner.cc:50-56): create one store, then call
the workload's `SetUp`; the first failing status is returned. -/
def setUpWorkload (env : WorkloadEnv) : Status × List Ev :=
  if !env.setUpStoreStatus.isOk then
    (env.setUpStoreStatus, [Ev.createSetUpStore])
  else if !env.workload.setUpStatus.isOk then
    (env.workload.setUpStatus, [Ev.createSetUpStore, Ev.setUpCall])
  else (Status.ok, [Ev.createSetUpStore, Ev.setUpCall])

/-- The loop of `PrepareStoresForThreads` (thread_runner.cc:41-45) from
index `i`, creating `k` more stores: stops at the first failing creation. -/
def prepareFrom (create : Nat → Status) : Nat → Nat → Status × List Ev
  | _, 0 => (Status.ok, [])
  | i, k + 1 =>
    let s := create i
    if !s.isOk then (s, [Ev.createThreadStore i])
    else
      let rest := prepareFrom create (i + 1) k
      (rest.1, Ev.createThreadStore i :: rest.2)

/-- `PrepareStoresForThreads` (thread_runner.cc:35-47). -/
def prepareStoresForThreads (create : Nat → Status) (numThreads : Nat) :
    Status × List Ev :=
  prepareFrom create 0 numThreads

/-- The result of one worker's `ExecuteWorkload` call: the returned status,
the shared counter after the call, the worker's `ThreadStats`, the trace of
`RunOp`/`Update` events, and the final `work_items_index` cursor. -/
structure ExecResult where
  status : Status
  total : Nat
  stats : ThreadStats
  trace : List Ev
  cursor : Nat
deriving Repr, DecidableEq

/-- The while loop of `ExecuteWorkload` (thread_runner.cc:67-84), with
explicit fuel.  State: cursor `idx`, attempt number `att` at that cursor,
shared counter `total`, worker stats `ts`.  Branches mirror the source:
a non-OK non-ABORTED status returns immediately; a non-OK (ABORTED) status
retries the same index; success advances the cursor, increments the shared
counter and updates the stats with the incremented counter. -/
def execLoop (wl : Workload) (stopIdx : Nat) :
    Nat → Nat → Nat → Nat → ThreadStats → Option ExecResult
  | 0, _, _, _, _ => none
  | fuel + 1, idx, att, total, ts =>
    if idx < stopIdx then
      let opStats := (wl.runOp idx att).1
      let status := (wl.runOp idx att).2
      if !status.isOk && status.code != abortedCode then
        some ⟨status, total, ts, [Ev.runOp idx], idx⟩
      else if !status.isOk then
        (execLoop wl stopIdx fuel idx (att + 1) total ts).map
          (fun r => { r with trace := Ev.runOp idx :: r.trace })
      else
        (execLoop wl stopIdx fuel (idx + 1) 0 (total + 1)
            (ts.update opStats (total + 1))).map
          (fun r =>
            { r with trace := Ev.runOp idx :: Ev.update idx :: r.trace })
    else
      some ⟨Status.ok, total, ts, [], idx⟩

/-- `ExecuteWorkload` (thread_runner.cc:60-86): run the work items in
`[workItemsStartIndex, workItemsStartIndex + opPerThread)`. -/
def executeWorkload (workItemsStartIndex opPerThread : Nat) (wl : Workload)
    (approxTotalDone : Nat) (currThreadStats : ThreadStats) (fuel : Nat) :
    Option ExecResult :=
  execLoop wl (workItemsStartIndex + opPerThread) fuel workItemsStartIndex 0
    approxTotalDone currThreadStats

/-- What one worker task leaves behind: its published status slot, the
shared counter after it ran, its stats slot, and its event trace. -/
structure WorkerOut where
  status : Status
  total : Nat
  stats : ThreadStats
  trace : List Ev
deriving Repr, DecidableEq

/-- The worker closure scheduled at thread_runner.cc:144-152: `Start()` the
stats, run `ExecuteWorkload` on the range starting at `op_per_thread * t`,
publish the status, `Stop()` the stats. -/
def runWorker (wl : Workload) (opPerThread t fuel total : Nat) :
    Option WorkerOut :=
  (executeWorkload (opPerThread * t) opPerThread wl total statsZero fuel).map
    (fun r => ⟨r.status, r.total, r.stats,
      Ev.statsStart :: r.trace ++ [Ev.statsStop]⟩)

/-- Outcome of the scheduling loop (thread_runner.cc:139-154): either fuel
ran out, or a worker's non-OK status was visible at the post-schedule check
(`caught`: remaining workers never scheduled), or all workers were
scheduled and finished (`completed`, with the final shared counter). -/
inductive WorkersResult where
  | outOfFuel
  | caught (st : Status) (outs : List WorkerOut)
  | completed (outs : List WorkerOut) (total : Nat)
deriving Repr

/-- The scheduling loop (thread_runner.cc:139-154) for workers
`t, t+1, ..., t+k-1`, threading the shared counter.  After scheduling
worker `t`, the main thread executes `TF_RETURN_IF_ERROR(curr_status)`
(line 153); the worker's status is visible there only if the worker had
already finished, which the `observed` oracle decides. -/
def scheduleLoop (wl : Workload) (opPerThread fuel : Nat)
    (observed : Nat → Bool) : Nat → Nat → Nat → WorkersResult
  | _, 0, total => WorkersResult.completed [] total
  | t, k + 1, total =>
    match runWorker wl opPerThread t fuel total with
    | none => WorkersResult.outOfFuel
    | some w =>
      if observed t && !w.status.isOk then WorkersResult.caught w.status [w]
      else
        match scheduleLoop wl opPerThread fuel observed (t + 1) k w.total with
        | WorkersResult.outOfFuel => WorkersResult.outOfFuel
        | WorkersResult.caught st ws => WorkersResult.caught st (w :: ws)
        | WorkersResult.completed ws tot =>
          WorkersResult.completed (w :: ws) tot

/-- The engine-level events of the scheduling loop: one `scheduleWorker`
event per worker actually scheduled. -/
def schedTrace (outs : List WorkerOut) : List Ev :=
  (List.range outs.length).map Ev.scheduleWorker

/-- What processing one workload slot leaves behind: the status the
workload iteration ends with (OK or the fatal status `Run` returns), the
summary written into the report (if any), the outputs of the workers that
were scheduled, the final shared counter, and the engine's event trace. -/
structure WlStep where
  status : Status
  summary : Option WorkloadConfigResult
  outs : List WorkerOut
  total : Nat
  trace : List Ev

/-- The merge loop of `MergeThreadStatsAndReport` (thread_runner.cc:94-96):
fold every other worker's stats into the first one (`statsZero` for the
empty list, which `Run` never produces since there is one slot per
thread). -/
def mergedStats : List ThreadStats → ThreadStats
  | [] => statsZero
  | a :: rest => rest.foldl ThreadStats.merge a

/-- `MergeThreadStatsAndReport` (thread_runner.cc:91-102): fold every other
worker's stats into the first one, then report. -/
def mergeThreadStatsAndReport (workloadName : String)
    (threadStatsList : List ThreadStats) : WorkloadConfigResult :=
  let report := (mergedStats threadStatsList).report workloadName
  { bytesPerSecond := report.1, microsecondsPerOperation := report.2 }

/-- One iteration of the workload loop of `ThreadRunner::Run`
(thread_runner.cc:122-159): set up, compute `op_per_thread` by integer
division, provision the per-worker stores, run the scheduling loop, tear
down, merge and write the summary.  Each `TF_RETURN_IF_ERROR` ends the
iteration with that status and no summary written; a status caught at the
post-schedule check returns before `TearDown` is called. -/
def runOneWorkload (numThreads fuel : Nat) (env : WorkloadEnv)
    (observed : Nat → Bool) : Option WlStep :=
  let su := setUpWorkload env
  if !su.1.isOk then some ⟨su.1, none, [], 0, su.2⟩
  else
    let opPerThread := env.workload.numOperations / numThreads
    let prep := prepareStoresForThreads env.threadStoreStatus numThreads
    if !prep.1.isOk then some ⟨prep.1, none, [], 0, su.2 ++ prep.2⟩
    else
      match scheduleLoop env.workload opPerThread fuel observed 0
          numThreads 0 with
      | WorkersResult.outOfFuel => none
      | WorkersResult.caught st outs =>
        some ⟨st, none, outs, 0, su.2 ++ prep.2 ++ schedTrace outs⟩
      | WorkersResult.completed outs tot =>
        if !env.workload.tearDownStatus.isOk then
          some ⟨env.workload.tearDownStatus, none, outs, tot,
            su.2 ++ prep.2 ++ schedTrace outs ++ [Ev.tearDownCall]⟩
        else
          some ⟨Status.ok,
            some (mergeThreadStatsAndReport env.workload.name
              (outs.map (fun w => w.stats))),
            outs, tot,
            su.2 ++ prep.2 ++ schedTrace outs ++ [Ev.tearDownCall]⟩

/-- The result of `ThreadRunner::Run`: the returned status, the report
(one summary slot per workload, in benchmark order, `none` = never
written), and the per-workload steps that were actually processed. -/
structure RunOut where
  status : Status
  report : List (Option WorkloadConfigResult)
  steps : List WlStep

/-- The workload loop of `ThreadRunner::Run` (thread_runner.cc:122-159)
from workload index `i`: process workloads in order, stopping at the first
iteration that ends with a non-OK status, which `Run` returns; the report
slots of unprocessed workloads stay unwritten. -/
def runFrom (numThreads fuel : Nat) (observed : Nat → Nat → Bool) :
    Nat → List WorkloadEnv → Option RunOut
  | _, [] => some ⟨Status.ok, [], []⟩
  | i, env :: rest =>
    match runOneWorkload numThreads fuel env (observed i) with
    | none => none
    | some step =>
      if step.status.isOk then
        match runFrom numThreads fuel observed (i + 1) rest with
        | none => none
        | some out => some ⟨out.status, step.summary :: out.report,
            step :: out.steps⟩
      else
        some ⟨step.status, step.summary :: rest.map (fun _ => none), [step]⟩

/-- `ThreadRunner::Run` (thread_runner.cc:120-161). -/
def threadRunnerRun (numThreads fuel : Nat) (observed : Nat → Nat → Bool)
    (benchmark : List WorkloadEnv) : Option RunOut :=
  runFrom numThreads fuel observed 0 benchmark

/-- The work-item indices of the `Update` events of a trace (one per
success recorded into the worker's stats). -/
def updatesOf (tr : List Ev) : List Nat :=
  tr.filterMap fun e =>
    match e with
    | Ev.update i => some i
    | _ => none

/-- The work-item indices of the `RunOp` events of a trace (one per
attempt, retries included). -/
def attemptsOf (tr : List Ev) : List Nat :=
  tr.filterMap fun e =>
    match e with
    | Ev.runOp i => some i
    | _ => none

/-- A fatal (non-retryable, non-ABORTED) status for concrete scenarios. -/
def exFatal : Status := ⟨3, "invalid argument"⟩

/-- An ABORTED (retryable-conflict) status for concrete scenarios. -/
def exAborted : Status := ⟨abortedCode, "concurrent write conflict"⟩

/-- A workload of `t` operations that all succeed at the first attempt. -/
def exWlOk (t : Nat) : Workload :=
  { name := "uniform", numOperations := t, setUpStatus := Status.ok,
    runOp := fun _ _ => (⟨8, 4⟩, Status.ok), tearDownStatus := Status.ok }

/-- A workload whose every operation fails with a fatal status. -/
def exWlFatal : Workload :=
  { name := "failing", numOperations := 1, setUpStatus := Status.ok,
    runOp := fun _ _ => (⟨0, 1⟩, exFatal), tearDownStatus := Status.ok }

/-- A workload where index 1 hits a retryable conflict on its first two
attempts and then succeeds; every other index succeeds at once. -/
def exWlRetry : Workload :=
  { name := "contended", numOperations := 3, setUpStatus := Status.ok,
    runOp := fun i a =>
      if i == 1 && a < 2 then (⟨0, 1⟩, exAborted) else (⟨8, 4⟩, Status.ok),
    tearDownStatus := Status.ok }

/-- A workload whose teardown fails. -/
def exWlTdFail : Workload :=
  { name := "leaky", numOperations := 2, setUpStatus := Status.ok,
    runOp := fun _ _ => (⟨8, 4⟩, Status.ok),
    tearDownStatus := ⟨13, "teardown failed"⟩ }

/-- An environment whose store creations all succeed. -/
def exEnvOf (wl : Workload) : WorkloadEnv :=
  ⟨wl, Status.ok, fun _ => Status.ok⟩

/-- An environment where setup succeeds but every per-thread store
creation fails with UNAVAILABLE (code 14). -/
def exEnvBadStore : WorkloadEnv :=
  ⟨exWlOk 4, Status.ok, fun _ => ⟨14, "connection failed"⟩⟩

/-- An environment whose workload setup fails with NOT_FOUND (code 5). -/
def exEnvBadSetUp : WorkloadEnv :=
  ⟨{ exWlOk 4 with setUpStatus := ⟨5, "not found"⟩ }, Status.ok,
    fun _ => Status.ok⟩

@[simp]
theorem updatesOf_nil : updatesOf [] = [] := rfl

@[simp]
theorem updatesOf_cons_runOp (i : Nat) (tr : List Ev) :
    updatesOf (Ev.runOp i :: tr) = updatesOf tr := rfl

@[simp]
theorem updatesOf_cons_update (i : Nat) (tr : List Ev) :
    updatesOf (Ev.update i :: tr) = i :: updatesOf tr := rfl

@[simp]
theorem updatesOf_cons_statsStart (tr : List Ev) :
    updatesOf (Ev.statsStart :: tr) = updatesOf tr := rfl

@[simp]
theorem updatesOf_cons_statsStop (tr : List Ev) :
    updatesOf (Ev.statsStop :: tr) = updatesOf tr := rfl

@[simp]
theorem updatesOf_append (a b : List Ev) :
    updatesOf (a ++ b) = updatesOf a ++ updatesOf b :=
  List.filterMap_append a b _

@[simp]
theorem attemptsOf_nil : attemptsOf [] = [] := rfl

@[simp]
theorem attemptsOf_cons_runOp (i : Nat) (tr : List Ev) :
    attemptsOf (Ev.runOp i :: tr) = i :: attemptsOf tr := rfl

@[simp]
theorem attemptsOf_cons_update (i : Nat) (tr : List Ev) :
    attemptsOf (Ev.update i :: tr) = attemptsOf tr := rfl

@[simp]
theorem attemptsOf_cons_statsStart (tr : List Ev) :
    attemptsOf (Ev.statsStart :: tr) = attemptsOf tr := rfl

@[simp]
theorem attemptsOf_cons_statsStop (tr : List Ev) :
    attemptsOf (Ev.statsStop :: tr) = attemptsOf tr := rfl

@[simp]
theorem attemptsOf_append (a b : List Ev) :
    attemptsOf (a ++ b) = attemptsOf a ++ attemptsOf b :=
  List.filterMap_append a b _

/-- Full characterization of the `ExecuteWorkload` loop: it never returns
ABORTED; the cursor only moves forward and never past the end of the
range; on OK the cursor reached the end of the range, on a fatal status it
stopped strictly inside it; the successes recorded are exactly the
contiguous indices the cursor passed, in increasing order; the worker's
operation count and the shared counter each grow by exactly the number of
successes; every attempted index lies between the start and the cursor,
inside the range; and the trace holds only `RunOp`/`Update` events. -/
theorem execLoop_spec (wl : Workload) (stop : Nat) :
    ∀ fuel idx att total ts r, idx ≤ stop →
      execLoop wl stop fuel idx att total ts = some r →
      r.status.code ≠ abortedCode ∧
      idx ≤ r.cursor ∧ r.cursor ≤ stop ∧
      (r.status.isOk = true → r.cursor = stop) ∧
      (r.status.isOk = false → r.cursor < stop) ∧
      updatesOf r.trace = List.range' idx (r.cursor - idx) ∧
      r.stats.ops = ts.ops + (r.cursor - idx) ∧
      r.total = total + (r.cursor - idx) ∧
      (∀ i ∈ attemptsOf r.trace, idx ≤ i ∧ i ≤ r.cursor ∧ i < stop) ∧
      (∀ e ∈ r.trace, (∃ i, e = Ev.runOp i) ∨ (∃ i, e = Ev.update i)) := by
  intro fuel
  induction fuel with
  | zero => intro idx att total ts r _ h; simp [execLoop] at h
  | succ fuel ih =>
    intro idx att total ts r hle h
    rw [execLoop] at h
    by_cases hlt : idx < stop
    · rw [if_pos hlt] at h
      simp only at h
      by_cases hfatal :
          (!(wl.runOp idx att).2.isOk && (wl.runOp idx att).2.code != abortedCode) = true
      · rw [if_pos hfatal] at h
        cases h
        have hcode : (wl.runOp idx att).2.code ≠ abortedCode := by
          simp only [Bool.and_eq_true, bne_iff_ne] at hfatal
          exact hfatal.2
        have hnok : (wl.runOp idx att).2.isOk = false := by
          simp only [Bool.and_eq_true, Bool.not_eq_true'] at hfatal
          exact hfatal.1
        refine ⟨hcode, Nat.le_refl _, Nat.le_of_lt hlt, ?_, ?_, ?_, ?_, ?_, ?_, ?_⟩
        · intro hok; rw [hnok] at hok; cases hok
        · intro _; exact hlt
        · simp
        · simp
        · simp
        · intro i hi
          simp only [attemptsOf_cons_runOp, attemptsOf_nil, List.mem_singleton] at hi
          subst hi
          exact ⟨Nat.le_refl _, Nat.le_refl _, hlt⟩
        · intro e he
          simp only [List.mem_singleton] at he
          subst he
          exact Or.inl ⟨idx, rfl⟩
      · rw [if_neg hfatal] at h
        by_cases hab : (!(wl.runOp idx att).2.isOk) = true
        · rw [if_pos hab] at h
          cases hrec : execLoop wl stop fuel idx (att + 1) total ts with
          | none => rw [hrec] at h; cases h
          | some r' =>
            rw [hrec] at h
            simp only [Option.map_some'] at h
            obtain ⟨hc, hc1, hc2, hok, hnok, hupd, hops, htot, hatt, hev⟩ :=
              ih idx (att + 1) total ts r' hle hrec
            cases h
            refine ⟨hc, hc1, hc2, hok, hnok, ?_, hops, htot, ?_, ?_⟩
            · simpa using hupd
            · intro i hi
              simp only [attemptsOf_cons_runOp, List.mem_cons] at hi
              rcases hi with hi | hi
              · subst hi; exact ⟨Nat.le_refl _, hc1, hlt⟩
              · exact hatt i hi
            · intro e he
              simp only [List.mem_cons] at he
              rcases he with he | he
              · subst he; exact Or.inl ⟨idx, rfl⟩
              · exact hev e he
        · rw [if_neg hab] at h
          cases hrec : execLoop wl stop fuel (idx + 1) 0 (total + 1)
              (ts.update (wl.runOp idx att).1 (total + 1)) with
          | none => rw [hrec] at h; cases h
          | some r' =>
            rw [hrec] at h
            simp only [Option.map_some'] at h
            obtain ⟨hc, hc1, hc2, hok, hnok, hupd, hops, htot, hatt, hev⟩ :=
              ih (idx + 1) 0 (total + 1) (ts.update (wl.runOp idx att).1 (total + 1))
                r' hlt hrec
            cases h
            have hcur : idx + 1 ≤ r'.cursor := hc1
            refine ⟨hc, Nat.le_of_lt hcur, hc2, hok, hnok, ?_, ?_, ?_, ?_, ?_⟩
            · simp only [updatesOf_cons_runOp, updatesOf_cons_update, hupd]
              have : r'.cursor - idx = (r'.cursor - (idx + 1)) + 1 := by omega
              rw [this, List.range'_succ]
            · simp only [hops, ThreadStats.update]
              omega
            · simp only [htot]; omega
            · intro i hi
              simp only [attemptsOf_cons_runOp, attemptsOf_cons_update,
                List.mem_cons] at hi
              rcases hi with hi | hi
              · subst hi; exact ⟨Nat.le_refl _, Nat.le_of_lt hcur, hlt⟩
              · obtain ⟨h1, h2, h3⟩ := hatt i hi
                exact ⟨Nat.le_of_lt h1, h2, h3⟩
            · intro e he
              simp only [List.mem_cons] at he
              rcases he with he | he | he
              · subst he; exact Or.inl ⟨idx, rfl⟩
              · subst he; exact Or.inr ⟨idx, rfl⟩
              · exact hev e he
    · rw [if_neg hlt] at h
      cases h
      have hidx : idx = stop := by omega
      refine ⟨?_, Nat.le_refl _, hle, ?_, ?_, ?_, ?_, ?_, ?_, ?_⟩
      · show Status.ok.code ≠ abortedCode
        simp [Status.ok, abortedCode]
      · intro _; exact hidx
      · intro hnok
        have : Status.ok.isOk = true := rfl
        rw [this] at hnok; cases hnok
      · simp
      · simp
      · simp
      · intro i hi; simp [attemptsOf] at hi
      · intro e he; cases he

/-- `k` consecutive ABORTED attempts at the current index leave the loop
state untouched apart from the attempt number: the cursor, the shared
counter and the worker statistics are unchanged, and the same index is
immediately retried; the trace gains one `RunOp` event per retry. -/
theorem execLoop_abort_steps (wl : Workload) (stop : Nat) :
    ∀ k fuel idx att total ts, idx < stop →
      (∀ a, a < k → (wl.runOp idx (att + a)).2.isOk = false ∧
        (wl.runOp idx (att + a)).2.code = abortedCode) →
      execLoop wl stop (fuel + k) idx att total ts =
        (execLoop wl stop fuel idx (att + k) total ts).map
          (fun r =>
            { r with trace := List.replicate k (Ev.runOp idx) ++ r.trace }) := by
  intro k
  induction k with
  | zero =>
    intro fuel idx att total ts _ _
    show execLoop wl stop fuel idx att total ts =
      (execLoop wl stop fuel idx att total ts).map
        (fun r =>
          { r with trace := List.replicate 0 (Ev.runOp idx) ++ r.trace })
    cases execLoop wl stop fuel idx att total ts with
    | none => rfl
    | some r => rfl
  | succ k ih =>
    intro fuel idx att total ts hlt hab
    have h0 := hab 0 (Nat.succ_pos k)
    rw [Nat.add_zero] at h0
    have hab' : ∀ a, a < k → (wl.runOp idx ((att + 1) + a)).2.isOk = false ∧
        (wl.runOp idx ((att + 1) + a)).2.code = abortedCode := by
      intro a ha
      have := hab (a + 1) (by omega)
      rwa [show att + (a + 1) = (att + 1) + a by omega] at this
    have hstep : execLoop wl stop ((fuel + k) + 1) idx att total ts =
        (execLoop wl stop (fuel + k) idx (att + 1) total ts).map
          (fun r => { r with trace := Ev.runOp idx :: r.trace }) := by
      rw [execLoop]
      rw [if_pos hlt]
      simp only [h0.1, h0.2, bne_self_eq_false, Bool.not_false, Bool.and_false,
        Bool.false_eq_true, if_false, Bool.not_true, if_true]
    calc execLoop wl stop (fuel + (k + 1)) idx att total ts
        = execLoop wl stop ((fuel + k) + 1) idx att total ts := rfl
      _ = (execLoop wl stop (fuel + k) idx (att + 1) total ts).map
            (fun r => { r with trace := Ev.runOp idx :: r.trace }) := hstep
      _ = ((execLoop wl stop fuel idx ((att + 1) + k) total ts).map
            (fun r =>
              { r with trace := List.replicate k (Ev.runOp idx) ++ r.trace })).map
            (fun r => { r with trace := Ev.runOp idx :: r.trace }) := by
          rw [ih fuel idx (att + 1) total ts hlt hab']
      _ = (execLoop wl stop fuel idx (att + (k + 1)) total ts).map
            (fun r =>
              { r with trace :=
                  List.replicate (k + 1) (Ev.runOp idx) ++ r.trace }) := by
          rw [show (att + 1) + k = att + (k + 1) by omega, Option.map_map]
          cases hres : execLoop wl stop fuel idx (att + (k + 1)) total ts with
          | none => simp
          | some r => simp [Function.comp, List.replicate_succ]

/-- What one scheduled worker task leaves behind, characterized: its status
is never ABORTED; on OK it recorded exactly its owned range, in increasing
order, with its stats counting exactly those successes and the shared
counter advanced by that many; every attempt stays inside the owned range;
and the trace is `Start`, then only `RunOp`/`Update` events, then `Stop`. -/
theorem runWorker_spec (wl : Workload) (q t fuel total : Nat) (w : WorkerOut)
    (h : runWorker wl q t fuel total = some w) :
    w.status.code ≠ abortedCode ∧
    (w.status.isOk = true → updatesOf w.trace = List.range' (q * t) q ∧
      w.stats.ops = q ∧ w.total = total + q) ∧
    (∀ i ∈ attemptsOf w.trace, q * t ≤ i ∧ i < q * t + q) ∧
    (∃ mid, w.trace = Ev.statsStart :: mid ++ [Ev.statsStop] ∧
      ∀ e ∈ mid, (∃ i, e = Ev.runOp i) ∨ (∃ i, e = Ev.update i)) := by
  rw [runWorker] at h
  cases hr : executeWorkload (q * t) q wl total statsZero fuel with
  | none => rw [hr] at h; cases h
  | some r =>
    rw [hr] at h
    simp only [Option.map_some'] at h
    obtain ⟨hc, hc1, hc2, hok, _, hupd, hops, htot, hatt, hev⟩ :=
      execLoop_spec wl (q * t + q) fuel (q * t) 0 total statsZero r
        (Nat.le_add_right _ _) hr
    cases h
    refine ⟨hc, ?_, ?_, ?_⟩
    · intro hsok
      have hcur := hok hsok
      refine ⟨?_, ?_, ?_⟩
      · show updatesOf (Ev.statsStart :: r.trace ++ [Ev.statsStop]) =
          List.range' (q * t) q
        simp only [updatesOf_cons_statsStart, updatesOf_append,
          updatesOf_cons_statsStop, updatesOf_nil, List.append_nil]
        rw [hupd, hcur]
        congr 1
        omega
      · show r.stats.ops = q
        rw [hops, hcur]
        simp only [statsZero]
        omega
      · show r.total = total + q
        rw [htot, hcur]; omega
    · intro i hi
      simp only [attemptsOf_cons_statsStart, attemptsOf_append,
        attemptsOf_cons_statsStop, attemptsOf_nil, List.append_nil] at hi
      obtain ⟨h1, _, h3⟩ := hatt i hi
      exact ⟨h1, h3⟩
    · exact ⟨r.trace, rfl, hev⟩

/-- A status caught at the post-schedule check is a worker's status: it is
non-OK and never ABORTED. -/
theorem scheduleLoop_caught_spec (wl : Workload) (q fuel : Nat)
    (obs : Nat → Bool) :
    ∀ k t total st ws, scheduleLoop wl q fuel obs t k total =
        WorkersResult.caught st ws →
      st.isOk = false ∧ st.code ≠ abortedCode := by
  intro k
  induction k with
  | zero => intro t total st ws h; simp [scheduleLoop] at h
  | succ k ih =>
    intro t total st ws h
    rw [scheduleLoop] at h
    cases hw : runWorker wl q t fuel total with
    | none => rw [hw] at h; simp at h
    | some w =>
      rw [hw] at h
      simp only [] at h
      by_cases hcond : (obs t && !w.status.isOk) = true
      · rw [if_pos hcond] at h
        cases h
        simp only [Bool.and_eq_true, Bool.not_eq_true'] at hcond
        exact ⟨hcond.2, (runWorker_spec wl q t fuel total w hw).1⟩
      · rw [if_neg hcond] at h
        cases hs : scheduleLoop wl q fuel obs (t + 1) k w.total with
        | outOfFuel => rw [hs] at h; simp at h
        | caught st' ws' =>
          rw [hs] at h
          simp only [] at h
          cases h
          exact ih _ _ _ _ hs
        | completed ws' tot => rw [hs] at h; simp at h

/-- The completed scheduling loop, characterized: it scheduled exactly its
`k` workers, worker `j` of the batch ran the range starting at
`q * (t + j)`, and in a run where every worker ended OK the shared counter
advanced by exactly `k * q`. -/
theorem scheduleLoop_completed_spec (wl : Workload) (q fuel : Nat)
    (obs : Nat → Bool) :
    ∀ k t total outs tot, scheduleLoop wl q fuel obs t k total =
        WorkersResult.completed outs tot →
      outs.length = k ∧
      (∀ j w, outs[j]? = some w →
        w.status.code ≠ abortedCode ∧
        (w.status.isOk = true →
          updatesOf w.trace = List.range' (q * (t + j)) q ∧ w.stats.ops = q) ∧
        (∀ i ∈ attemptsOf w.trace, q * (t + j) ≤ i ∧ i < q * (t + j) + q) ∧
        (∃ mid, w.trace = Ev.statsStart :: mid ++ [Ev.statsStop] ∧
          ∀ e ∈ mid, (∃ i, e = Ev.runOp i) ∨ (∃ i, e = Ev.update i))) ∧
      ((∀ w ∈ outs, w.status.isOk = true) → tot = total + k * q) := by
  intro k
  induction k with
  | zero =>
    intro t total outs tot h
    rw [scheduleLoop] at h
    cases h
    refine ⟨rfl, ?_, ?_⟩
    · intro j w hw; simp at hw
    · intro _; simp
  | succ k ih =>
    intro t total outs tot h
    rw [scheduleLoop] at h
    cases hw : runWorker wl q t fuel total with
    | none => rw [hw] at h; simp at h
    | some w =>
      rw [hw] at h
      simp only [] at h
      by_cases hcond : (obs t && !w.status.isOk) = true
      · rw [if_pos hcond] at h; simp at h
      · rw [if_neg hcond] at h
        cases hs : scheduleLoop wl q fuel obs (t + 1) k w.total with
        | outOfFuel => rw [hs] at h; simp at h
        | caught st' ws' => rw [hs] at h; simp at h
        | completed ws' tot' =>
          rw [hs] at h
          simp only [] at h
          cases h
          obtain ⟨hlen, hidx, htot⟩ := ih (t + 1) w.total ws' _ hs
          obtain ⟨hwc, hwok, hwatt, hwshape⟩ := runWorker_spec wl q t fuel total w hw
          refine ⟨by simp [hlen], ?_, ?_⟩
          · intro j v hv
            cases j with
            | zero =>
              simp only [List.getElem?_cons_zero, Option.some.injEq] at hv
              subst hv
              rw [Nat.add_zero]
              exact ⟨hwc, fun hok => (hwok hok).imp_right And.left, hwatt, hwshape⟩
            | succ j =>
              simp only [List.getElem?_cons_succ] at hv
              have := hidx j v hv
              rwa [show (t + 1) + j = t + (j + 1) by omega] at this
          · intro hall
            have hwok' : w.status.isOk = true := hall w (by simp)
            have hwt : w.total = total + q := ((hwok hwok').2).2
            have htt : tot = w.total + k * q := by
              apply htot
              intro v hv
              exact hall v (by simp [hv])
            rw [htt, hwt]
            ring
/-- The status `SetUpWorkload` returns is the setup store's creation
status, the workload's `SetUp` status, or OK. -/
theorem setUpWorkload_status_cases (env : WorkloadEnv) :
    (setUpWorkload env).1 = env.setUpStoreStatus ∨
    (setUpWorkload env).1 = env.workload.setUpStatus ∨
    (setUpWorkload env).1 = Status.ok := by
  rw [setUpWorkload]
  by_cases h1 : env.setUpStoreStatus.isOk
  · rw [if_neg (by simp [h1])]
    by_cases h2 : env.workload.setUpStatus.isOk
    · rw [if_neg (by simp [h2])]; right; right; rfl
    · rw [if_pos (by simp [h2])]; right; left; rfl
  · rw [if_pos (by simp [h1])]; left; rfl

/-- A successful `SetUpWorkload` made exactly one store-creation call and
one `SetUp` call. -/
theorem setUpWorkload_ok_trace (env : WorkloadEnv)
    (h : (setUpWorkload env).1.isOk = true) :
    (setUpWorkload env).2 = [Ev.createSetUpStore, Ev.setUpCall] := by
  rw [setUpWorkload] at h ⊢
  by_cases h1 : env.setUpStoreStatus.isOk
  · rw [if_neg (by simp [h1])] at h ⊢
    by_cases h2 : env.workload.setUpStatus.isOk
    · rw [if_neg (by simp [h2])]
    · rw [if_pos (by simp [h2])] at h
      exact absurd h h2
  · rw [if_pos (by simp [h1])] at h
    exact absurd h h1

/-- `SetUpWorkload` only calls store creation and `SetUp`. -/
theorem setUpWorkload_trace_cases (env : WorkloadEnv) :
    ∀ e ∈ (setUpWorkload env).2,
      e = Ev.createSetUpStore ∨ e = Ev.setUpCall := by
  rw [setUpWorkload]
  by_cases h1 : env.setUpStoreStatus.isOk
  · rw [if_neg (by simp [h1])]
    by_cases h2 : env.workload.setUpStatus.isOk
    · rw [if_neg (by simp [h2])]
      intro e he
      simp only [List.mem_cons, List.mem_singleton, List.not_mem_nil,
        or_false] at he
      exact he
    · rw [if_pos (by simp [h2])]
      intro e he
      simp only [List.mem_cons, List.mem_singleton, List.not_mem_nil,
        or_false] at he
      exact he
  · rw [if_pos (by simp [h1])]
    intro e he
    simp only [List.mem_singleton] at he
    exact Or.inl he

/-- The provisioning loop only makes store-creation calls. -/
theorem prepareFrom_trace_cases (create : Nat → Status) :
    ∀ k i e, e ∈ (prepareFrom create i k).2 →
      ∃ j, e = Ev.createThreadStore j := by
  intro k
  induction k with
  | zero => intro i e he; simp [prepareFrom] at he
  | succ k ih =>
    intro i e he
    simp only [prepareFrom] at he
    by_cases hc : (create i).isOk
    · rw [if_neg (by simp [hc])] at he
      simp only [List.mem_cons] at he
      rcases he with rfl | he
      · exact ⟨i, rfl⟩
      · exact ih (i + 1) e he
    · rw [if_pos (by simp [hc])] at he
      simp only [List.mem_singleton] at he
      subst he; exact ⟨i, rfl⟩

/-- The status the provisioning loop returns is OK or the status of one of
the store-creation calls. -/
theorem prepareFrom_status_cases (create : Nat → Status) :
    ∀ k i, (prepareFrom create i k).1 = Status.ok ∨
      ∃ j, (prepareFrom create i k).1 = create j := by
  intro k
  induction k with
  | zero => intro i; left; rfl
  | succ k ih =>
    intro i
    simp only [prepareFrom]
    by_cases hc : (create i).isOk
    · rw [if_neg (by simp [hc])]
      exact ih (i + 1)
    · rw [if_pos (by simp [hc])]
      right; exact ⟨i, rfl⟩

/-- The scheduling trace only holds `scheduleWorker` events. -/
theorem schedTrace_cases (outs : List WorkerOut) :
    ∀ e ∈ schedTrace outs, ∃ t, e = Ev.scheduleWorker t := by
  intro e he
  simp only [schedTrace, List.mem_map, List.mem_range] at he
  obtain ⟨t, _, rfl⟩ := he
  exact ⟨t, rfl⟩

/-- `Run`'s workload iteration when `SetUpWorkload` fails: that status is
the result, no summary, no worker, only the setup trace. -/
theorem runOneWorkload_setUp_fail (N fuel : Nat) (env : WorkloadEnv)
    (obs : Nat → Bool) (h : (setUpWorkload env).1.isOk = false) :
    runOneWorkload N fuel env obs =
      some ⟨(setUpWorkload env).1, none, [], 0, (setUpWorkload env).2⟩ := by
  simp only [runOneWorkload]
  rw [if_pos (by simp [h])]

/-- `Run`'s workload iteration when provisioning fails after a successful
setup: the failing creation status is the result, no summary, no worker. -/
theorem runOneWorkload_prepare_fail (N fuel : Nat) (env : WorkloadEnv)
    (obs : Nat → Bool) (hsu : (setUpWorkload env).1.isOk = true)
    (hp : (prepareStoresForThreads env.threadStoreStatus N).1.isOk = false) :
    runOneWorkload N fuel env obs =
      some ⟨(prepareStoresForThreads env.threadStoreStatus N).1, none, [], 0,
        (setUpWorkload env).2 ++
          (prepareStoresForThreads env.threadStoreStatus N).2⟩ := by
  simp only [runOneWorkload]
  rw [if_neg (by simp [hsu]), if_pos (by simp [hp])]

/-- `Run`'s workload iteration when a worker's non-OK status is visible at
the post-schedule check: that status is the result, `TearDown` is never
called and no summary is written. -/
theorem runOneWorkload_caught (N fuel : Nat) (env : WorkloadEnv)
    (obs : Nat → Bool) (st : Status) (outs : List WorkerOut)
    (hsu : (setUpWorkload env).1.isOk = true)
    (hp : (prepareStoresForThreads env.threadStoreStatus N).1.isOk = true)
    (hs : scheduleLoop env.workload (env.workload.numOperations / N) fuel obs
        0 N 0 = WorkersResult.caught st outs) :
    runOneWorkload N fuel env obs =
      some ⟨st, none, outs, 0,
        (setUpWorkload env).2 ++
          (prepareStoresForThreads env.threadStoreStatus N).2 ++
          schedTrace outs⟩ := by
  simp only [runOneWorkload]
  rw [if_neg (by simp [hsu]), if_neg (by simp [hp]), hs]

/-- `Run`'s workload iteration when all workers were scheduled and finished
but `TearDown` fails: the teardown status is the result and no summary is
written; the teardown call is the last engine event. -/
theorem runOneWorkload_teardown_fail (N fuel : Nat) (env : WorkloadEnv)
    (obs : Nat → Bool) (outs : List WorkerOut) (tot : Nat)
    (hsu : (setUpWorkload env).1.isOk = true)
    (hp : (prepareStoresForThreads env.threadStoreStatus N).1.isOk = true)
    (hs : scheduleLoop env.workload (env.workload.numOperations / N) fuel obs
        0 N 0 = WorkersResult.completed outs tot)
    (htd : env.workload.tearDownStatus.isOk = false) :
    runOneWorkload N fuel env obs =
      some ⟨env.workload.tearDownStatus, none, outs, tot,
        (setUpWorkload env).2 ++
          (prepareStoresForThreads env.threadStoreStatus N).2 ++
          schedTrace outs ++ [Ev.tearDownCall]⟩ := by
  simp only [runOneWorkload]
  rw [if_neg (by simp [hsu]), if_neg (by simp [hp]), hs]
  simp only []
  rw [if_pos (by simp [htd])]

/-- `Run`'s workload iteration on the all-OK path: the merged summary is
written, the iteration ends OK, and the teardown call is the last engine
event. -/
theorem runOneWorkload_ok (N fuel : Nat) (env : WorkloadEnv)
    (obs : Nat → Bool) (outs : List WorkerOut) (tot : Nat)
    (hsu : (setUpWorkload env).1.isOk = true)
    (hp : (prepareStoresForThreads env.threadStoreStatus N).1.isOk = true)
    (hs : scheduleLoop env.workload (env.workload.numOperations / N) fuel obs
        0 N 0 = WorkersResult.completed outs tot)
    (htd : env.workload.tearDownStatus.isOk = true) :
    runOneWorkload N fuel env obs =
      some ⟨Status.ok,
        some (mergeThreadStatsAndReport env.workload.name
          (outs.map (fun w => w.stats))),
        outs, tot,
        (setUpWorkload env).2 ++
          (prepareStoresForThreads env.threadStoreStatus N).2 ++
          schedTrace outs ++ [Ev.tearDownCall]⟩ := by
  simp only [runOneWorkload]
  rw [if_neg (by simp [hsu]), if_neg (by simp [hp]), hs]
  simp only []
  rw [if_neg (by simp [htd])]

/-- Inversion: an iteration that ended OK went through a successful setup,
successful provisioning, a completed scheduling loop over its workers, and
a successful teardown. -/
theorem runOneWorkload_ok_inv (N fuel : Nat) (env : WorkloadEnv)
    (obs : Nat → Bool) (step : WlStep)
    (h : runOneWorkload N fuel env obs = some step)
    (hok : step.status.isOk = true) :
    (setUpWorkload env).1.isOk = true ∧
    (prepareStoresForThreads env.threadStoreStatus N).1.isOk = true ∧
    env.workload.tearDownStatus.isOk = true ∧
    ∃ tot, scheduleLoop env.workload (env.workload.numOperations / N) fuel
        obs 0 N 0 = WorkersResult.completed step.outs tot ∧
      step.total = tot := by
  by_cases h1 : (setUpWorkload env).1.isOk
  · by_cases h2 : (prepareStoresForThreads env.threadStoreStatus N).1.isOk
    · cases hs : scheduleLoop env.workload
          (env.workload.numOperations / N) fuel obs 0 N 0 with
      | outOfFuel =>
        simp only [runOneWorkload] at h
        rw [if_neg (by simp [h1]), if_neg (by simp [h2]), hs] at h
        simp at h
      | caught st outs =>
        rw [runOneWorkload_caught N fuel env obs st outs h1 h2 hs] at h
        cases h
        have := (scheduleLoop_caught_spec env.workload
          (env.workload.numOperations / N) fuel obs N 0 0 st outs hs).1
        rw [show (⟨st, none, outs, 0, (setUpWorkload env).2 ++
            (prepareStoresForThreads env.threadStoreStatus N).2 ++
            schedTrace outs⟩ : WlStep).status = st from rfl] at hok
        rw [hok] at this
        cases this
      | completed outs tot =>
        by_cases h3 : env.workload.tearDownStatus.isOk
        · rw [runOneWorkload_ok N fuel env obs outs tot h1 h2 hs
            (by simpa using h3)] at h
          cases h
          exact ⟨h1, h2, by simpa using h3, tot, rfl, rfl⟩
        · rw [runOneWorkload_teardown_fail N fuel env obs outs tot h1 h2 hs
            (by simpa using h3)] at h
          cases h
          exact absurd hok (by simpa using h3)
    · rw [runOneWorkload_prepare_fail N fuel env obs h1
        (by simpa using h2)] at h
      cases h
      exact absurd hok (by simpa using h2)
  · rw [runOneWorkload_setUp_fail N fuel env obs (by simpa using h1)] at h
    cases h
    exact absurd hok (by simpa using h1)

/-- When a workload iteration ends with a non-OK status, `Run` returns that
very status: the report slots of that workload and of every later workload
stay unwritten, and no later workload is processed. -/
theorem runFrom_fatal_step (N fuel : Nat) (obs2 : Nat → Nat → Bool)
    (i : Nat) (env : WorkloadEnv) (rest : List WorkloadEnv) (step : WlStep)
    (h : runOneWorkload N fuel env (obs2 i) = some step)
    (hnok : step.status.isOk = false) :
    runFrom N fuel obs2 i (env :: rest) =
      some ⟨step.status, step.summary :: rest.map (fun _ => none),
        [step]⟩ := by
  rw [runFrom, h]
  simp only []
  rw [if_neg (by simp [hnok])]

/-- When a workload iteration ends OK, `Run` writes its summary slot and
moves on to the remaining workloads. -/
theorem runFrom_ok_step (N fuel : Nat) (obs2 : Nat → Nat → Bool) (i : Nat)
    (env : WorkloadEnv) (rest : List WorkloadEnv) (step : WlStep)
    (out : RunOut) (h : runOneWorkload N fuel env (obs2 i) = some step)
    (hok : step.status.isOk = true)
    (hr : runFrom N fuel obs2 (i + 1) rest = some out) :
    runFrom N fuel obs2 i (env :: rest) =
      some ⟨out.status, step.summary :: out.report, step :: out.steps⟩ := by
  rw [runFrom, h]
  simp only []
  rw [if_pos (by simp [hok]), hr]

/-- The status of one workload iteration is never ABORTED, provided none of
the collaborator lifecycle calls (store creation, `SetUp`, `TearDown`)
returns ABORTED: `RunOp`-level retryable conflicts never escape. -/
theorem runOneWorkload_not_aborted (N fuel : Nat) (env : WorkloadEnv)
    (obs : Nat → Bool) (step : WlStep)
    (hc1 : env.setUpStoreStatus.code ≠ abortedCode)
    (hc2 : env.workload.setUpStatus.code ≠ abortedCode)
    (hc3 : ∀ j, (env.threadStoreStatus j).code ≠ abortedCode)
    (hc4 : env.workload.tearDownStatus.code ≠ abortedCode)
    (h : runOneWorkload N fuel env obs = some step) :
    step.status.code ≠ abortedCode := by
  by_cases h1 : (setUpWorkload env).1.isOk
  · by_cases h2 : (prepareStoresForThreads env.threadStoreStatus N).1.isOk
    · cases hs : scheduleLoop env.workload
          (env.workload.numOperations / N) fuel obs 0 N 0 with
      | outOfFuel =>
        simp only [runOneWorkload] at h
        rw [if_neg (by simp [h1]), if_neg (by simp [h2]), hs] at h
        simp at h
      | caught st outs =>
        rw [runOneWorkload_caught N fuel env obs st outs h1 h2 hs] at h
        cases h
        exact (scheduleLoop_caught_spec env.workload
          (env.workload.numOperations / N) fuel obs N 0 0 st outs hs).2
      | completed outs tot =>
        by_cases h3 : env.workload.tearDownStatus.isOk
        · rw [runOneWorkload_ok N fuel env obs outs tot h1 h2 hs
            (by simpa using h3)] at h
          cases h
          show Status.ok.code ≠ abortedCode
          decide
        · rw [runOneWorkload_teardown_fail N fuel env obs outs tot h1 h2 hs
            (by simpa using h3)] at h
          cases h
          exact hc4
    · rw [runOneWorkload_prepare_fail N fuel env obs h1
        (by simpa using h2)] at h
      cases h
      show (prepareStoresForThreads env.threadStoreStatus N).1.code ≠
        abortedCode
      rcases prepareFrom_status_cases env.threadStoreStatus N 0 with hp | ⟨j, hp⟩
      · rw [prepareStoresForThreads, hp]; decide
      · rw [prepareStoresForThreads, hp]; exact hc3 j
  · rw [runOneWorkload_setUp_fail N fuel env obs (by simpa using h1)] at h
    cases h
    show (setUpWorkload env).1.code ≠ abortedCode
    rcases setUpWorkload_status_cases env with hp | hp | hp
    · rw [hp]; exact hc1
    · rw [hp]; exact hc2
    · rw [hp]; decide

/-- `Run`'s status is never ABORTED, provided no collaborator lifecycle
call returned ABORTED: retryable conflicts never surface from the run. -/
theorem runFrom_not_aborted (N fuel : Nat) (obs2 : Nat → Nat → Bool) :
    ∀ envs i out,
      (∀ env ∈ envs, env.setUpStoreStatus.code ≠ abortedCode ∧
        env.workload.setUpStatus.code ≠ abortedCode ∧
        (∀ j, (env.threadStoreStatus j).code ≠ abortedCode) ∧
        env.workload.tearDownStatus.code ≠ abortedCode) →
      runFrom N fuel obs2 i envs = some out →
      out.status.code ≠ abortedCode := by
  intro envs
  induction envs with
  | nil =>
    intro i out _ h
    rw [runFrom] at h
    cases h
    show Status.ok.code ≠ abortedCode
    decide
  | cons env rest ih =>
    intro i out hall h
    rw [runFrom] at h
    cases hw : runOneWorkload N fuel env (obs2 i) with
    | none => rw [hw] at h; simp at h
    | some step =>
      rw [hw] at h
      simp only [] at h
      by_cases hok : step.status.isOk = true
      · rw [if_pos (by simp [hok])] at h
        cases hr : runFrom N fuel obs2 (i + 1) rest with
        | none => rw [hr] at h; simp at h
        | some out2 =>
          rw [hr] at h
          simp only [] at h
          cases h
          exact ih (i + 1) out2
            (fun e he => hall e (List.mem_cons_of_mem _ he)) hr
      · rw [if_neg (by simp [hok])] at h
        cases h
        have h5 := hall env (List.mem_cons_self _ _)
        exact runOneWorkload_not_aborted N fuel env (obs2 i) step
          h5.1 h5.2.1 h5.2.2.1 h5.2.2.2 hw

/-- `ThreadStats::Merge` is commutative (all measures combine by `+` or
`max`). -/
theorem merge_comm (a b : ThreadStats) : a.merge b = b.merge a := by
  simp [ThreadStats.merge, ThreadStats.mk.injEq, Nat.add_comm, Nat.max_comm]

/-- `ThreadStats::Merge` is associative. -/
theorem merge_assoc (a b c : ThreadStats) :
    (a.merge b).merge c = a.merge (b.merge c) := by
  simp [ThreadStats.merge, ThreadStats.mk.injEq, Nat.add_assoc, Nat.max_assoc]

/-- The default-constructed stats object is a left identity for `Merge`. -/
theorem merge_zero (b : ThreadStats) : statsZero.merge b = b := by
  cases b with
  | mk x y z w => simp [ThreadStats.merge, statsZero]

/-- Folding `Merge` respects permutation of the folded list. -/
theorem foldl_merge_perm (l l' : List ThreadStats) (h : l.Perm l') :
    ∀ b, l.foldl ThreadStats.merge b = l'.foldl ThreadStats.merge b := by
  induction h with
  | nil => intro b; rfl
  | cons x _ ih => intro b; simp only [List.foldl_cons]; exact ih _
  | swap x y l =>
    intro b
    simp only [List.foldl_cons]
    have hx : (b.merge y).merge x = (b.merge x).merge y := by
      rw [merge_assoc, merge_assoc, merge_comm y x]
    rw [hx]
  | trans _ _ ih1 ih2 => intro b; rw [ih1, ih2]

/-- The merge loop equals a fold from the identity over the whole list. -/
theorem mergedStats_eq_foldl (l : List ThreadStats) :
    mergedStats l = l.foldl ThreadStats.merge statsZero := by
  cases l with
  | nil => rfl
  | cons a rest =>
    show rest.foldl ThreadStats.merge a = _
    rw [List.foldl_cons, merge_zero]

/-- The merge loop is invariant under permutation of the worker stats. -/
theorem mergedStats_perm (l l' : List ThreadStats) (h : l.Perm l') :
    mergedStats l = mergedStats l' := by
  rw [mergedStats_eq_foldl, mergedStats_eq_foldl]
  exact foldl_merge_perm l l' h statsZero

/-- Sum of the per-worker operation counts when each equals `q`. -/
theorem sum_ops_const (q : Nat) :
    ∀ l : List WorkerOut, (∀ w ∈ l, w.stats.ops = q) →
      (l.map (fun w => w.stats.ops)).sum = l.length * q := by
  intro l
  induction l with
  | nil => intro _; simp
  | cons w rest ih =>
    intro hall
    simp only [List.map_cons, List.sum_cons, List.length_cons]
    rw [hall w (by simp), ih (fun v hv => hall v (by simp [hv]))]
    ring

/-- Claim C1, divergence at a concrete input: under the common interleaving
in which no worker task has finished by the time the main thread executes
the post-schedule status check (thread_runner.cc:153) — the check reads the
still-default OK status and worker statuses are never re-examined after the
pool joins — a worker's fatal (code 3) `RunOp` failure is silently dropped:
`ThreadRunner::Run` returns OK, the failing workload's Report entry is
written, and the next workload is set up and executed, contradicting the
claim that the fatal status is returned, the Report entry never written,
and no subsequent workload run. -/
theorem c1_fatal_error_swallowed_under_race :
    (threadRunnerRun 1 5 (fun _ _ => false)
        [exEnvOf exWlFatal, exEnvOf (exWlOk 1)]).map
      (fun out => (out.status.isOk, out.report.map Option.isSome,
        out.steps.map fun s => s.outs.map (fun w => w.status.code))) =
    some (true, [true, true], [[3], [0]]) := by decide

/-- Claim C4: a worker either returns OK having executed all `cnt` owned
indices in strictly increasing order with exactly `cnt` recorded successes
and the cursor at the end of its range, or returns a fatal status early
with successes recorded exactly for the indices before the failing cursor
and no index beyond the failing one ever attempted; an empty owned range
returns OK immediately with no `RunOp` and no `Update` call. -/
theorem c4_worker_completes_range_or_stops_early :
    (∀ (start cnt : Nat) (wl : Workload) (total : Nat) (ts : ThreadStats)
        (fuel : Nat) (r : ExecResult),
      executeWorkload start cnt wl total ts fuel = some r →
      (r.status.isOk = true →
        updatesOf r.trace = List.range' start cnt ∧
        r.stats.ops = ts.ops + cnt ∧ r.cursor = start + cnt) ∧
      (r.status.isOk = false →
        start ≤ r.cursor ∧ r.cursor < start + cnt ∧
        updatesOf r.trace = List.range' start (r.cursor - start) ∧
        r.stats.ops = ts.ops + (r.cursor - start) ∧
        (∀ i ∈ attemptsOf r.trace, i ≤ r.cursor))) ∧
    (∀ (start : Nat) (wl : Workload) (total : Nat) (ts : ThreadStats)
        (fuel : Nat),
      executeWorkload start 0 wl total ts (fuel + 1) =
        some ⟨Status.ok, total, ts, [], start⟩) := by
  constructor
  · intro start cnt wl total ts fuel r h
    obtain ⟨_, hc1, hc2, hok, hnok, hupd, hops, _, hatt, _⟩ :=
      execLoop_spec wl (start + cnt) fuel start 0 total ts r
        (Nat.le_add_right _ _) h
    constructor
    · intro hsok
      have hcur := hok hsok
      have hcnt : r.cursor - start = cnt := by omega
      exact ⟨by rw [hupd, hcnt], by rw [hops, hcnt], hcur⟩
    · intro hsnok
      exact ⟨hc1, hnok hsnok, hupd, hops, fun i hi => (hatt i hi).2.1⟩
  · intro start wl total ts fuel
    rw [executeWorkload, execLoop, if_neg (by omega)]

/-- Claim C4 witness at a concrete worker: two owned indices, all
successes. -/
theorem c4_witness :
    ∃ r, executeWorkload 0 2 (exWlOk 2) 0 statsZero 10 = some r ∧
      (r.status.isOk = true → updatesOf r.trace = List.range' 0 2 ∧
        r.stats.ops = statsZero.ops + 2 ∧ r.cursor = 0 + 2) := by
  refine ⟨_, rfl, ?_⟩
  exact (c4_worker_completes_range_or_stops_early.1 0 2 (exWlOk 2) 0
    statsZero 10 _ rfl).1

/-- Claim C7: because the modelled `Merge` is commutative and associative,
the merged workload aggregate and the summary pair written by
`MergeThreadStatsAndReport` are the same for every permutation of the
per-worker statistics list. -/
theorem c7_merge_and_report_permutation_invariant (name : String)
    (l l' : List ThreadStats) (h : l.Perm l') :
    mergedStats l = mergedStats l' ∧
    mergeThreadStatsAndReport name l = mergeThreadStatsAndReport name l' := by
  have hm := mergedStats_perm l l' h
  exact ⟨hm, by simp only [mergeThreadStatsAndReport, hm]⟩

/-- Claim C7 witness: swapping two concrete worker stats leaves the
reported summary unchanged. -/
theorem c7_witness :
    mergeThreadStatsAndReport "w" [⟨1, 2, 3, 4⟩, ⟨5, 6, 7, 8⟩] =
      mergeThreadStatsAndReport "w" [⟨5, 6, 7, 8⟩, ⟨1, 2, 3, 4⟩] :=
  (c7_merge_and_report_permutation_invariant "w" _ _
    (List.Perm.swap _ _ _)).2

/-- Claim C9: every worker task's trace is exactly `Start`, then the
execution loop's `RunOp`/`Update` events only, then `Stop` — one `Start`
at the beginning, one `Stop` at the end, on the success path and on the
fatal path alike, with no other call (in particular no provisioning, which
happens in `Run` before the workers are scheduled) inside the bracket. -/
theorem c9_stats_start_stop_bracket (wl : Workload) (q t fuel total : Nat)
    (w : WorkerOut) (h : runWorker wl q t fuel total = some w) :
    ∃ mid, w.trace = Ev.statsStart :: mid ++ [Ev.statsStop] ∧
      (∀ e ∈ mid, (∃ i, e = Ev.runOp i) ∨ (∃ i, e = Ev.update i)) ∧
      w.trace.count Ev.statsStart = 1 ∧
      w.trace.count Ev.statsStop = 1 := by
  obtain ⟨-, -, -, mid, htr, hmid⟩ := runWorker_spec wl q t fuel total w h
  have hs1 : Ev.statsStart ∉ mid := by
    intro hmem
    rcases hmid _ hmem with ⟨i, hi⟩ | ⟨i, hi⟩ <;> simp at hi
  have hs2 : Ev.statsStop ∉ mid := by
    intro hmem
    rcases hmid _ hmem with ⟨i, hi⟩ | ⟨i, hi⟩ <;> simp at hi
  refine ⟨mid, htr, hmid, ?_, ?_⟩
  · rw [htr]
    simp [List.count_cons, List.count_append,
      List.count_eq_zero.mpr hs1]
  · rw [htr]
    simp [List.count_cons, List.count_append,
      List.count_eq_zero.mpr hs2]

/-- Claim C9 witness at a concrete worker. -/
theorem c9_witness :
    ∃ w, runWorker (exWlOk 4) 2 1 10 0 = some w ∧
      w.trace.count Ev.statsStart = 1 ∧ w.trace.count Ev.statsStop = 1 := by
  obtain ⟨mid, htr, hmid, h1, h2⟩ :=
    c9_stats_start_stop_bracket (exWlOk 4) 2 1 10 0 _ rfl
  exact ⟨_, rfl, h1, h2⟩

/-- Claim C3: when `RunOp` keeps returning ABORTED at an index, the same
index is immediately retried with no retry limit — after `k` consecutive
conflicts followed by one success the loop made `k + 1` `RunOp` calls at
that one index, yet the cursor advanced exactly once, the statistics
received exactly one `Update` and the shared counter exactly one
increment; moreover neither `ExecuteWorkload` nor the engine run ever
returns an ABORTED status (the engine clause under the hypothesis that the
lifecycle collaborator calls themselves do not return ABORTED). -/
theorem c3_aborted_retries_same_index_never_surface :
    (∀ (wl : Workload) (idx k total fuel : Nat) (ts : ThreadStats),
      (∀ a, a < k → (wl.runOp idx a).2.isOk = false ∧
        (wl.runOp idx a).2.code = abortedCode) →
      (wl.runOp idx k).2.isOk = true →
      execLoop wl (idx + 1) (fuel + 1 + 1 + k) idx 0 total ts =
        some ⟨Status.ok, total + 1,
          ts.update (wl.runOp idx k).1 (total + 1),
          List.replicate k (Ev.runOp idx) ++ [Ev.runOp idx, Ev.update idx],
          idx + 1⟩) ∧
    (∀ (start cnt : Nat) (wl : Workload) (total : Nat) (ts : ThreadStats)
        (fuel : Nat) (r : ExecResult),
      executeWorkload start cnt wl total ts fuel = some r →
      r.status.code ≠ abortedCode) ∧
    (∀ (N fuel : Nat) (obs2 : Nat → Nat → Bool) (i : Nat)
        (envs : List WorkloadEnv) (out : RunOut),
      (∀ env ∈ envs, env.setUpStoreStatus.code ≠ abortedCode ∧
        env.workload.setUpStatus.code ≠ abortedCode ∧
        (∀ j, (env.threadStoreStatus j).code ≠ abortedCode) ∧
        env.workload.tearDownStatus.code ≠ abortedCode) →
      runFrom N fuel obs2 i envs = some out →
      out.status.code ≠ abortedCode) := by
  refine ⟨?_, ?_, ?_⟩
  · intro wl idx k total fuel ts hab hok
    have hsteps := execLoop_abort_steps wl (idx + 1) k (fuel + 1 + 1) idx 0
      total ts (Nat.lt_succ_self idx) (by
        intro a ha
        rw [Nat.zero_add]
        exact hab a ha)
    rw [hsteps, Nat.zero_add]
    have hinner : execLoop wl (idx + 1) (fuel + 1 + 1) idx k total ts =
        some ⟨Status.ok, total + 1,
          ts.update (wl.runOp idx k).1 (total + 1),
          [Ev.runOp idx, Ev.update idx], idx + 1⟩ := by
      rw [execLoop, if_pos (Nat.lt_succ_self idx)]
      simp only []
      rw [if_neg (by simp [hok]), if_neg (by simp [hok])]
      rw [execLoop, if_neg (Nat.lt_irrefl (idx + 1))]
      rfl
    rw [hinner]
    rfl
  · intro start cnt wl total ts fuel r h
    exact (execLoop_spec wl (start + cnt) fuel start 0 total ts r
      (Nat.le_add_right _ _) h).1
  · intro N fuel obs2 i envs out hall h
    exact runFrom_not_aborted N fuel obs2 envs i out hall h

/-- Claim C3 witness: two consecutive conflicts at index 1 of a concrete
workload, then success. -/
theorem c3_witness :
    execLoop exWlRetry (1 + 1) (3 + 1 + 1 + 2) 1 0 0 statsZero =
      some ⟨Status.ok, 0 + 1,
        statsZero.update (exWlRetry.runOp 1 2).1 (0 + 1),
        List.replicate 2 (Ev.runOp 1) ++ [Ev.runOp 1, Ev.update 1],
        1 + 1⟩ :=
  c3_aborted_retries_same_index_never_surface.1 exWlRetry 1 2 0 3 statsZero
    (by decide) (by decide)

/-- Claim C5: a failing `SetUpWorkload` or a failing per-worker store
creation ends the workload iteration with exactly that status before any
worker is scheduled: the step records no worker output, writes no summary,
and its trace holds only setup and provisioning calls (no worker schedule,
no `RunOp`, no teardown); at the engine level `Run` then returns that very
status with the report slots of this and all later workloads unwritten. -/
theorem c5_failed_setup_or_provisioning_propagates_before_workers :
    (∀ (N fuel : Nat) (env : WorkloadEnv) (obs : Nat → Bool),
      (setUpWorkload env).1.isOk = false →
      runOneWorkload N fuel env obs =
        some ⟨(setUpWorkload env).1, none, [], 0, (setUpWorkload env).2⟩) ∧
    (∀ (N fuel : Nat) (env : WorkloadEnv) (obs : Nat → Bool),
      (setUpWorkload env).1.isOk = true →
      (prepareStoresForThreads env.threadStoreStatus N).1.isOk = false →
      runOneWorkload N fuel env obs =
        some ⟨(prepareStoresForThreads env.threadStoreStatus N).1, none,
          [], 0, (setUpWorkload env).2 ++
            (prepareStoresForThreads env.threadStoreStatus N).2⟩) ∧
    (∀ (N fuel : Nat) (env : WorkloadEnv) (obs : Nat → Bool)
        (step : WlStep),
      ((setUpWorkload env).1.isOk = false ∨
        (prepareStoresForThreads env.threadStoreStatus N).1.isOk = false) →
      runOneWorkload N fuel env obs = some step →
      step.summary = none ∧ step.outs = [] ∧
      ∀ e ∈ step.trace, e = Ev.createSetUpStore ∨ e = Ev.setUpCall ∨
        ∃ j, e = Ev.createThreadStore j) ∧
    (∀ (N fuel : Nat) (obs2 : Nat → Nat → Bool) (i : Nat)
        (env : WorkloadEnv) (rest : List WorkloadEnv) (step : WlStep),
      runOneWorkload N fuel env (obs2 i) = some step →
      step.status.isOk = false →
      runFrom N fuel obs2 i (env :: rest) =
        some ⟨step.status, step.summary :: rest.map (fun _ => none),
          [step]⟩) := by
  refine ⟨runOneWorkload_setUp_fail, runOneWorkload_prepare_fail, ?_,
    runFrom_fatal_step⟩
  intro N fuel env obs step hfail h
  by_cases h1 : (setUpWorkload env).1.isOk
  · have h2 : (prepareStoresForThreads env.threadStoreStatus N).1.isOk =
        false := by
      rcases hfail with hf | hf
      · simp [h1] at hf
      · exact hf
    rw [runOneWorkload_prepare_fail N fuel env obs h1 h2] at h
    cases h
    refine ⟨rfl, rfl, ?_⟩
    intro e he
    rcases List.mem_append.mp he with he | he
    · rcases setUpWorkload_trace_cases env e he with h | h
      · exact Or.inl h
      · exact Or.inr (Or.inl h)
    · exact Or.inr (Or.inr
        (prepareFrom_trace_cases env.threadStoreStatus N 0 e he))
  · rw [runOneWorkload_setUp_fail N fuel env obs (by simpa using h1)] at h
    cases h
    refine ⟨rfl, rfl, ?_⟩
    intro e he
    rcases setUpWorkload_trace_cases env e he with h | h
    · exact Or.inl h
    · exact Or.inr (Or.inl h)

/-- Claim C5 witness: a concrete environment whose workload setup fails. -/
theorem c5_witness :
    runOneWorkload 2 5 exEnvBadSetUp (fun _ => false) =
      some ⟨(setUpWorkload exEnvBadSetUp).1, none, [], 0,
        (setUpWorkload exEnvBadSetUp).2⟩ :=
  c5_failed_setup_or_provisioning_propagates_before_workers.1 2 5
    exEnvBadSetUp (fun _ => false) (by decide)

/-- Claim C10: when the per-worker store provisioning fails for a workload
whose setup already succeeded, the iteration ends with the connection
error, `TearDown` is never invoked (the workload stays in its set-up
state: exactly one `SetUp` call, zero teardown calls), no summary is
written, and `Run` returns the connection error with the report slots of
this and all later workloads unwritten. -/
theorem c10_provisioning_failure_returns_without_teardown
    (N fuel i : Nat) (env : WorkloadEnv) (rest : List WorkloadEnv)
    (obs2 : Nat → Nat → Bool)
    (hsu : (setUpWorkload env).1.isOk = true)
    (hp : (prepareStoresForThreads env.threadStoreStatus N).1.isOk =
      false) :
    ∃ step, runOneWorkload N fuel env (obs2 i) = some step ∧
      step.status = (prepareStoresForThreads env.threadStoreStatus N).1 ∧
      step.summary = none ∧
      step.trace.count Ev.tearDownCall = 0 ∧
      step.trace.count Ev.setUpCall = 1 ∧
      runFrom N fuel obs2 i (env :: rest) =
        some ⟨(prepareStoresForThreads env.threadStoreStatus N).1,
          none :: rest.map (fun _ => none), [step]⟩ := by
  refine ⟨⟨(prepareStoresForThreads env.threadStoreStatus N).1, none, [],
    0, (setUpWorkload env).2 ++
      (prepareStoresForThreads env.threadStoreStatus N).2⟩,
    runOneWorkload_prepare_fail N fuel env (obs2 i) hsu hp, rfl, rfl,
    ?_, ?_, ?_⟩
  · show ((setUpWorkload env).2 ++
      (prepareStoresForThreads env.threadStoreStatus N).2).count
        Ev.tearDownCall = 0
    apply List.count_eq_zero.mpr
    intro hmem
    rcases List.mem_append.mp hmem with hm | hm
    · rcases setUpWorkload_trace_cases env _ hm with h | h <;> simp at h
    · obtain ⟨j, hj⟩ :=
        prepareFrom_trace_cases env.threadStoreStatus N 0 _ hm
      simp at hj
  · show ((setUpWorkload env).2 ++
      (prepareStoresForThreads env.threadStoreStatus N).2).count
        Ev.setUpCall = 1
    rw [setUpWorkload_ok_trace env hsu]
    have hz : (prepareStoresForThreads env.threadStoreStatus N).2.count
        Ev.setUpCall = 0 := by
      apply List.count_eq_zero.mpr
      intro hmem
      obtain ⟨j, hj⟩ :=
        prepareFrom_trace_cases env.threadStoreStatus N 0 _ hmem
      simp at hj
    have hone : ([Ev.createSetUpStore, Ev.setUpCall] : List Ev).count
        Ev.setUpCall = 1 := by decide
    rw [List.count_append, hone, hz]
  · exact runFrom_fatal_step N fuel obs2 i env rest _
      (runOneWorkload_prepare_fail N fuel env (obs2 i) hsu hp) hp

/-- Claim C10 witness: a concrete environment whose thread-store creation
fails after a successful setup. -/
theorem c10_witness :
    ∃ step, runOneWorkload 2 5 exEnvBadStore (fun _ => false) =
        some step ∧
      step.trace.count Ev.tearDownCall = 0 ∧
      step.trace.count Ev.setUpCall = 1 := by
  obtain ⟨step, h1, _, _, h4, h5, _⟩ :=
    c10_provisioning_failure_returns_without_teardown 2 5 0 exEnvBadStore
      [] (fun _ _ => false) (by decide) (by decide)
  exact ⟨step, h1, h4, h5⟩

/-- Claim C6 counterexample: a concrete workload whose setup and
provisioning succeeded and whose single worker reported a fatal (code 3)
error that was visible at the post-schedule check — the engine returns the
error but `TearDown` is invoked zero times, refuting "TearDown is invoked
exactly once ... regardless of whether any worker reported a fatal
error". -/
theorem c6_counterexample_teardown_skipped_on_caught_error :
    (runOneWorkload 1 5 (exEnvOf exWlFatal) (fun _ => true)).map
      (fun s => (s.status.code, s.trace.count Ev.tearDownCall,
        s.trace.count Ev.setUpCall, s.outs.length)) =
    some (3, 0, 1, 1) := by decide

/-- Claim C6 as amended: for every workload whose setup and provisioning
succeeded and whose scheduling loop completed (no worker error observed at
the post-schedule checks), `TearDown` is invoked exactly once, as the last
engine call, strictly after all `N` workers finished — even when some
worker failed unobserved; and if `TearDown` itself fails, its error is
returned by the engine and no further workload is processed. -/
theorem c6_teardown_once_after_workers_when_checks_pass
    (N fuel i : Nat) (env : WorkloadEnv) (obs2 : Nat → Nat → Bool)
    (outs : List WorkerOut) (tot : Nat)
    (hsu : (setUpWorkload env).1.isOk = true)
    (hp : (prepareStoresForThreads env.threadStoreStatus N).1.isOk = true)
    (hs : scheduleLoop env.workload (env.workload.numOperations / N) fuel
        (obs2 i) 0 N 0 = WorkersResult.completed outs tot) :
    ∃ step, runOneWorkload N fuel env (obs2 i) = some step ∧
      step.outs.length = N ∧
      (∃ pre, step.trace = pre ++ [Ev.tearDownCall] ∧
        Ev.tearDownCall ∉ pre) ∧
      step.trace.count Ev.tearDownCall = 1 ∧
      (env.workload.tearDownStatus.isOk = false →
        step.status = env.workload.tearDownStatus ∧ step.summary = none ∧
        ∀ rest, runFrom N fuel obs2 i (env :: rest) =
          some ⟨env.workload.tearDownStatus,
            none :: rest.map (fun _ => none), [step]⟩) := by
  have hlen := (scheduleLoop_completed_spec env.workload
    (env.workload.numOperations / N) fuel (obs2 i) N 0 0 outs tot hs).1
  have hpre : Ev.tearDownCall ∉ (setUpWorkload env).2 ++
      (prepareStoresForThreads env.threadStoreStatus N).2 ++
      schedTrace outs := by
    intro hmem
    rcases List.mem_append.mp hmem with hm | hm
    · rcases List.mem_append.mp hm with hm | hm
      · rcases setUpWorkload_trace_cases env _ hm with h | h <;> simp at h
      · obtain ⟨j, hj⟩ :=
          prepareFrom_trace_cases env.threadStoreStatus N 0 _ hm
        simp at hj
    · obtain ⟨t, ht⟩ := schedTrace_cases outs _ hm
      simp at ht
  have hcount : (((setUpWorkload env).2 ++
      (prepareStoresForThreads env.threadStoreStatus N).2 ++
      schedTrace outs) ++ [Ev.tearDownCall]).count Ev.tearDownCall = 1 := by
    rw [List.count_append, List.count_eq_zero.mpr hpre]
    decide
  by_cases htd : env.workload.tearDownStatus.isOk
  · refine ⟨_, runOneWorkload_ok N fuel env (obs2 i) outs tot hsu hp hs
      htd, hlen, ⟨_, rfl, hpre⟩, hcount, ?_⟩
    intro hf
    exact absurd htd (by simp [hf])
  · have htd' : env.workload.tearDownStatus.isOk = false := by
      simpa using htd
    refine ⟨_, runOneWorkload_teardown_fail N fuel env (obs2 i) outs tot
      hsu hp hs htd', hlen, ⟨_, rfl, hpre⟩, hcount, ?_⟩
    intro _
    refine ⟨rfl, rfl, ?_⟩
    intro rest
    exact runFrom_fatal_step N fuel obs2 i env rest _
      (runOneWorkload_teardown_fail N fuel env (obs2 i) outs tot hsu hp hs
        htd') htd'

/-- Claim C6 witness: a concrete workload whose teardown fails after both
workers' operations completed. -/
theorem c6_witness :
    ∃ step, runOneWorkload 1 10 (exEnvOf exWlTdFail) (fun _ => false) =
        some step ∧
      step.trace.count Ev.tearDownCall = 1 ∧
      step.status = exWlTdFail.tearDownStatus := by
  obtain ⟨step, h1, _, _, h4, h5⟩ :=
    c6_teardown_once_after_workers_when_checks_pass 1 10 0
      (exEnvOf exWlTdFail) (fun _ _ => false) _ _ (by decide) (by decide)
      rfl
  exact ⟨step, h1, h4, (h5 (by decide)).1⟩

/-- Claim C2: with `q = T / N` computed by integer division, the completed
fatal-error-free workload scheduled exactly `N` workers; worker `t`
recorded successes at exactly the contiguous indices `[q*t, q*(t+1))` in
increasing order and attempted only indices in that range; the ranges of
distinct workers are disjoint; the completed operations across all workers
sum to `N * q`, which is also the final shared counter; and no index
`≥ N * q` is ever executed. -/
theorem c2_contiguous_partition_sum_and_truncation (N fuel : Nat)
    (env : WorkloadEnv) (obs : Nat → Bool) (step : WlStep) (hN : 1 ≤ N)
    (hrun : runOneWorkload N fuel env obs = some step)
    (hok : step.status.isOk = true)
    (hall : ∀ w ∈ step.outs, w.status.isOk = true) :
    step.outs.length = N ∧
    (∀ (t : Nat) (w : WorkerOut), step.outs[t]? = some w →
      updatesOf w.trace =
        List.range' (env.workload.numOperations / N * t)
          (env.workload.numOperations / N) ∧
      (∀ i ∈ attemptsOf w.trace,
        env.workload.numOperations / N * t ≤ i ∧
          i < env.workload.numOperations / N * (t + 1))) ∧
    (∀ (t u : Nat) (w v : WorkerOut), t ≠ u → step.outs[t]? = some w →
      step.outs[u]? = some v →
      ∀ i ∈ updatesOf w.trace, i ∉ updatesOf v.trace) ∧
    (step.outs.map (fun w => w.stats.ops)).sum =
      N * (env.workload.numOperations / N) ∧
    step.total = N * (env.workload.numOperations / N) ∧
    (∀ (t : Nat) (w : WorkerOut), step.outs[t]? = some w →
      ∀ i ∈ attemptsOf w.trace,
        i < N * (env.workload.numOperations / N)) := by
  obtain ⟨hsu, hp, htd, tot, hs, htot⟩ :=
    runOneWorkload_ok_inv N fuel env obs step hrun hok
  obtain ⟨hlen, hidx, hcnt⟩ := scheduleLoop_completed_spec env.workload
    (env.workload.numOperations / N) fuel obs N 0 0 step.outs tot hs
  have hworker : ∀ (t : Nat) (w : WorkerOut), step.outs[t]? = some w →
      updatesOf w.trace =
        List.range' (env.workload.numOperations / N * t)
          (env.workload.numOperations / N) ∧
      (∀ i ∈ attemptsOf w.trace,
        env.workload.numOperations / N * t ≤ i ∧
          i < env.workload.numOperations / N * t +
            env.workload.numOperations / N) := by
    intro t w hw
    have hmem : w ∈ step.outs := List.getElem?_mem hw
    obtain ⟨-, hupd, hatt, -⟩ := hidx t w hw
    rw [Nat.zero_add] at hupd hatt
    exact ⟨(hupd (hall w hmem)).1, hatt⟩
  refine ⟨hlen, ?_, ?_, ?_, ?_, ?_⟩
  · intro t w hw
    obtain ⟨hupd, hatt⟩ := hworker t w hw
    refine ⟨hupd, ?_⟩
    intro i hi
    obtain ⟨h1, h2⟩ := hatt i hi
    exact ⟨h1, by rw [Nat.mul_succ]; exact h2⟩
  · intro t u w v hne hw hv i hiw hiv
    obtain ⟨hupw, -⟩ := hworker t w hw
    obtain ⟨hupv, -⟩ := hworker u v hv
    rw [hupw] at hiw
    rw [hupv] at hiv
    obtain ⟨hbw1, hbw2⟩ := List.mem_range'_1.mp hiw
    obtain ⟨hbv1, hbv2⟩ := List.mem_range'_1.mp hiv
    rcases Nat.lt_trichotomy t u with hlt | heq | hlt
    · have h1 : i < env.workload.numOperations / N * (t + 1) := by
        rw [Nat.mul_succ]; exact hbw2
      have h2 : env.workload.numOperations / N * (t + 1) ≤
          env.workload.numOperations / N * u :=
        Nat.mul_le_mul_left _ hlt
      exact absurd (lt_of_lt_of_le h1 (le_trans h2 hbv1)) (lt_irrefl i)
    · exact hne heq
    · have h1 : i < env.workload.numOperations / N * (u + 1) := by
        rw [Nat.mul_succ]; exact hbv2
      have h2 : env.workload.numOperations / N * (u + 1) ≤
          env.workload.numOperations / N * t :=
        Nat.mul_le_mul_left _ hlt
      exact absurd (lt_of_lt_of_le h1 (le_trans h2 hbw1)) (lt_irrefl i)
  · have hops : ∀ w ∈ step.outs, w.stats.ops =
        env.workload.numOperations / N := by
      intro w hmem
      obtain ⟨t, hw⟩ := List.getElem?_of_mem hmem
      exact ((hidx t w hw).2.1 (hall w hmem)).2
    rw [sum_ops_const _ step.outs hops, hlen]
  · rw [htot, hcnt hall, Nat.zero_add]
  · intro t w hw i hi
    obtain ⟨-, hatt⟩ := hworker t w hw
    have ht : t < N := by
      obtain ⟨h, -⟩ := List.getElem?_eq_some.mp hw
      rwa [hlen] at h
    have h1 : i < env.workload.numOperations / N * (t + 1) := by
      rw [Nat.mul_succ]; exact (hatt i hi).2
    have h2 : env.workload.numOperations / N * (t + 1) ≤
        env.workload.numOperations / N * N :=
      Nat.mul_le_mul_left _ ht
    calc i < env.workload.numOperations / N * (t + 1) := h1
      _ ≤ env.workload.numOperations / N * N := h2
      _ = N * (env.workload.numOperations / N) := Nat.mul_comm _ _

/-- Claim C2 witness: three workers over ten declared operations — nine
completed, index nine never executed. -/
theorem c2_witness :
    ∃ step, runOneWorkload 3 20 (exEnvOf (exWlOk 10)) (fun _ => false) =
        some step ∧
      step.outs.length = 3 ∧ step.total = 3 * (10 / 3) := by
  refine ⟨_, rfl, ?_, ?_⟩
  · exact (c2_contiguous_partition_sum_and_truncation 3 20
      (exEnvOf (exWlOk 10)) (fun _ => false) _ (by decide) rfl (by decide)
      (by decide)).1
  · exact (c2_contiguous_partition_sum_and_truncation 3 20
      (exEnvOf (exWlOk 10)) (fun _ => false) _ (by decide) rfl (by decide)
      (by decide)).2.2.2.2.1

end MlmdBench
